import Mathlib

/-!
Shallow embedding of the online-learning core of the rsrl repository:
the sparse `Tile` buffer (src/rsrl/src/params/tile.rs), the domain types
(src/src/domain/mod.rs) and the TD(lambda) predictor
(src/src/prediction/td/td_lambda.rs), together with theorems checking the
specification's claims against these definitions.

Rust `f64` values are modelled as rationals so that every definition is
executable and equalities are decidable; the claims under scrutiny concern
the algebraic structure of the computations, not IEEE rounding.  A Rust
panic is modelled as an explicit failure value (`Option.none`, or the
`RResult.panicked` constructor where the distinction between a returned
absence and an abort matters).
-/

namespace Rsrl

/-! ### Dense vectors (ndarray one-dimensional arrays over f64) -/

/-- Elementwise addition of two dense vectors (`ndarray` `+=` / zip). -/
def vadd (a b : List ℚ) : List ℚ := List.zipWith (· + ·) a b

/-- Scaling of a dense vector by a constant (`ndarray` `*=`). -/
def vscale (c : ℚ) (v : List ℚ) : List ℚ := v.map (fun x => c * x)

/-- Dot product of two dense vectors. -/
def dot (a b : List ℚ) : ℚ := (List.zipWith (· * ·) a b).sum

theorem vadd_length (a b : List ℚ) : (vadd a b).length = min a.length b.length := by
  simp [vadd]

theorem vscale_length (c : ℚ) (v : List ℚ) : (vscale c v).length = v.length := by
  simp [vscale]

theorem vscale_zero_mem (v : List ℚ) : ∀ x ∈ vscale 0 v, x = 0 := by
  intro x hx
  rcases List.mem_map.mp hx with ⟨a, -, ha⟩
  rw [← ha, zero_mul]

/-! ### The sparse buffer `Tile<D, I>` from src/rsrl/src/params/tile.rs

The Rust type is generic over an `ndarray` dimension `D` and index `I`;
the embedding instantiates it at one-dimensional shapes (`D = usize`,
`I = usize`), which is the instantiation the tile-coding feature vectors
use.  `dim` is the shape, `active` the at-most-one active index/value pair. -/

structure Tile where
  dim : ℕ
  active : Option (ℕ × ℚ)
deriving DecidableEq

namespace Tile

/-- `Tile::new(dim, active)`. -/
def new (dim : ℕ) (active : Option (ℕ × ℚ)) : Tile := ⟨dim, active⟩

/-- `Buffer::raw_dim` for `Tile`: returns the stored shape. -/
def raw_dim (t : Tile) : ℕ := t.dim

/-- `Buffer::addto` for `Tile`: if an active cell `(idx, activation)` is
present, perform `arr[idx] += activation`; otherwise leave `arr` untouched. -/
def addto (t : Tile) (arr : List ℚ) : List ℚ :=
  match t.active with
  | none => arr
  | some (idx, activation) => arr.set idx (arr.getD idx 0 + activation)

/-- `Buffer::scaled_addto` for `Tile`: if an active cell is present, perform
`arr[idx] += alpha * activation`; otherwise leave `arr` untouched. -/
def scaled_addto (t : Tile) (alpha : ℚ) (arr : List ℚ) : List ℚ :=
  match t.active with
  | none => arr
  | some (idx, activation) => arr.set idx (arr.getD idx 0 + alpha * activation)

/-- `BufferMut::zeros` for `Tile`: `Tile::new(dim, None)` — no active cell. -/
def zeros (dim : ℕ) : Tile := Tile.new dim none

/-- `BufferMut::map_into` for `Tile`: applies `f` to the active value
(if any), keeping the shape. -/
def map_into (t : Tile) (f : ℚ → ℚ) : Tile :=
  { dim := t.dim, active := t.active.map (fun p => (p.1, f p.2)) }

/-- `BufferMut::map` for `Tile`: `self.clone().map_into(f)` — clone is the
identity under value semantics. -/
def map (t : Tile) (f : ℚ → ℚ) : Tile := t.map_into f

/-- `BufferMut::map_inplace` for `Tile`: applies `f` to the active value in
place; observationally the same transform as `map_into`. -/
def map_inplace (t : Tile) (f : ℚ → ℚ) : Tile := t.map_into f

/-- `BufferMut::merge_inplace` for `Tile`.  Panics (modelled as `none`) when
the shapes differ, and panics unless both operands have an active cell at
the same index; on success combines the active values with `f`. -/
def merge_inplace (t other : Tile) (f : ℚ → ℚ → ℚ) : Option Tile :=
  if t.dim ≠ other.dim then none
  else
    match t.active, other.active with
    | some (i, x), some (j, y) =>
        if i = j then some { dim := t.dim, active := some (i, f x y) } else none
    | _, _ => none

/-- `BufferMut::merge_into` for `Tile`: `self.merge_inplace(other, f); self`. -/
def merge_into (t other : Tile) (f : ℚ → ℚ → ℚ) : Option Tile :=
  t.merge_inplace other f

/-- `BufferMut::merge` for `Tile`: `self.clone().merge_into(other, f)`. -/
def merge (t other : Tile) (f : ℚ → ℚ → ℚ) : Option Tile :=
  t.merge_into other f

/-- The dense vector a `Tile` represents: its active value at its active
index, `0` everywhere else (a derived notion used to state claims about
the buffer's content). -/
def toVector (t : Tile) : List ℚ :=
  (List.range t.dim).map (fun i =>
    match t.active with
    | some (j, v) => if j = i then v else 0
    | none => 0)

end Tile

/-! ### Projections, traces, parameters and the linear approximator

`Projection`, `Trace`, `Parameter` and `SimpleLFA` live in crates of the
repository whose sources are not part of the sampled corpus (only their
caller, the TD(lambda) predictor, is); they are modelled from the
specification's component contracts. -/

/-- Modelled from the spec: the `Projection` type of the `fa` crate —
"a feature representation of a state; variants Dense(vector) or
Sparse(index set with weights)". -/
inductive Projection where
  | dense : List ℚ → Projection
  | sparse : List (ℕ × ℚ) → Projection

/-- Modelled from the spec: `Projection::expanded(dim)` — "converting any
Projection into a dense Buffer of the requested dimension".  A dense
projection is sized to `dim`; a sparse one becomes the dense vector with
the listed weights at the listed indices. -/
def Projection.expanded (dim : ℕ) : Projection → List ℚ
  | Projection.dense v => v.take dim ++ List.replicate (dim - v.length) 0
  | Projection.sparse l =>
      (List.range dim).map (fun i => ((l.filter (fun p => p.1 = i)).map Prod.snd).sum)

theorem expanded_length (dim : ℕ) (φ : Projection) : (φ.expanded dim).length = dim := by
  cases φ with
  | dense v => simp [Projection.expanded]; omega
  | sparse l => simp [Projection.expanded]

theorem expanded_dense_of_length (v : List ℚ) (dim : ℕ) (h : v.length = dim) :
    Projection.expanded dim (Projection.dense v) = v := by
  subst h
  simp [Projection.expanded]

/-- Modelled from the spec: the `Trace` of the `core` crate — "holds a decay
rate lambda and a dense vector matching the weight Buffer's shape". -/
structure Trace where
  lambda : ℚ
  vec : List ℚ

/-- Modelled from the spec: `Trace::decay(rate)` — "multiply the entire
stored dense vector by rate". -/
def Trace.decay (tr : Trace) (rate : ℚ) : Trace :=
  { tr with vec := vscale rate tr.vec }

/-- Modelled from the spec: `Trace::update(expanded_projection)` — "add the
expanded projection onto the (already decayed) stored vector". -/
def Trace.update (tr : Trace) (e : List ℚ) : Trace :=
  { tr with vec := vadd tr.vec e }

/-- Modelled from the spec: `Trace::get()` — read-only view of the content. -/
def Trace.get (tr : Trace) : List ℚ := tr.vec

/-- Modelled from the spec: the `Parameter` of the `core` crate — "a scalar
value plus an optional decay schedule and step counter".  The schedule is
kept as its closed form; the counter selects the current value. -/
structure Parameter where
  sched : ℕ → ℚ
  count : ℕ

/-- Modelled from the spec: `Parameter::value()` — the schedule's value at
the current step counter. -/
def Parameter.value (p : Parameter) : ℚ := p.sched p.count

/-- Modelled from the spec: `Parameter::step()` — advance the decay
schedule's step counter by one. -/
def Parameter.step (p : Parameter) : Parameter :=
  { p with count := p.count + 1 }

/-- Modelled from the spec: a `Projector` of the `fa` crate — the opaque
capability `project(state) -> Projection` of dimension `dim`, together with
the states it can represent ("evaluate fails when the projector cannot
represent the given state"). -/
structure Projector (S : Type) where
  dim : ℕ
  project : S → Projection
  representable : S → Bool

/-- Modelled from the spec: `SimpleLFA` of the `fa` crate — "projector +
weight Buffer" (theta kept dense). -/
structure SimpleLFA (S : Type) where
  projector : Projector S
  theta : List ℚ

/-- Modelled from the spec: `SimpleLFA::evaluate_phi(projection)` — the
dot-product contribution of the projection's features against theta. -/
def SimpleLFA.evaluate_phi {S : Type} (fa : SimpleLFA S) (φ : Projection) : ℚ :=
  dot (φ.expanded fa.projector.dim) fa.theta

/-- Modelled from the spec: `SimpleLFA::evaluate(state)` — project, then
dot against theta; "fails (returns an explicit absence, not a numeric
default) when the projector cannot represent the given state". -/
def SimpleLFA.evaluate {S : Type} (fa : SimpleLFA S) (s : S) : Option ℚ :=
  if fa.projector.representable s then some (fa.evaluate_phi (fa.projector.project s))
  else none

/-- Modelled from the spec: `SimpleLFA::update_phi(projection, delta)` —
`theta.scaled_addto(delta, projection)`, the single mutation point of theta. -/
def SimpleLFA.update_phi {S : Type} (fa : SimpleLFA S) (φ : Projection) (delta : ℚ) :
    SimpleLFA S :=
  { fa with theta := vadd fa.theta (vscale delta (φ.expanded fa.projector.dim)) }

/-- Modelled from the spec: `Parameterised::weights()` — read-only exposure
of theta. -/
def SimpleLFA.weights {S : Type} (fa : SimpleLFA S) : List ℚ := fa.theta

/-! ### Domain types from src/src/domain/mod.rs -/

/-- The `Observation` enum: `Full { state, actions }`,
`Partial { state, actions }` (constructor `part` here), `Terminal(state)`. -/
inductive Observation (S A : Type) where
  | full : S → List A → Observation S A
  | part : S → List A → Observation S A
  | terminal : S → Observation S A

/-- `Observation::state()`: the state carried by any of the three variants. -/
def Observation.state {S A : Type} : Observation S A → S
  | Observation.full s _ => s
  | Observation.part s _ => s
  | Observation.terminal s => s

/-- Modelled from the spec: the `is_terminal()` query on an observation,
used by the external loop to dispatch terminal vs non-terminal transitions. -/
def Observation.is_terminal {S A : Type} : Observation S A → Bool
  | Observation.terminal _ => true
  | _ => false

/-- The `Transition` struct: `{from, action, reward, to}` (`from` is a Lean
keyword, hence the field name `from'`). -/
structure Transition (S A : Type) where
  from' : Observation S A
  action : A
  reward : ℚ
  to' : Observation S A

/-- Outcome of a Rust computation that may panic: `ok` carries the returned
value, `panicked` marks an abort.  Distinguishes an explicit absence that a
caller receives as a value from a panic that tears the call down. -/
inductive RResult (α : Type) where
  | ok : α → RResult α
  | panicked : RResult α
deriving DecidableEq

/-! ### The TD(lambda) predictor from src/src/prediction/td/td_lambda.rs -/

/-- The `TDLambda` struct: trace, linear approximator `fa_theta`, and the
`alpha` / `gamma` parameters. -/
structure TDLambda (S : Type) where
  trace : Trace
  fa_theta : SimpleLFA S
  alpha : Parameter
  gamma : Parameter

/-- `Predictor::predict_v`: `self.fa_theta.evaluate(s).unwrap()` — the
`unwrap` turns `evaluate`'s absence into a panic. -/
def TDLambda.predict_v {S : Type} (st : TDLambda S) (s : S) : RResult ℚ :=
  match st.fa_theta.evaluate s with
  | some v => RResult.ok v
  | none => RResult.panicked

/-- `TDLambda::update_v(phi_s, error)`: decay the trace by
`lambda * gamma`, add the expanded projection onto it, then
`update_phi(Dense(trace.get()), alpha * error)`. -/
def TDLambda.update_v {S : Type} (st : TDLambda S) (phi_s : Projection) (error : ℚ) :
    TDLambda S :=
  let decay_rate := st.trace.lambda * st.gamma.value
  let tr1 := st.trace.decay decay_rate
  let tr2 := tr1.update (phi_s.expanded st.fa_theta.projector.dim)
  { st with
    trace := tr2,
    fa_theta := st.fa_theta.update_phi (Projection.dense tr2.get) (st.alpha.value * error) }

/-- `Algorithm::handle_sample`: project the `from` state, compute
`td_error = reward + gamma * predict_v(to.state) - evaluate_phi(phi_s)`,
then `update_v`.  `predict_v` may panic, in which case the call aborts. -/
def TDLambda.handle_sample {S A : Type} (st : TDLambda S) (t : Transition S A) :
    RResult (TDLambda S) :=
  let phi_s := st.fa_theta.projector.project t.from'.state
  let v := st.fa_theta.evaluate_phi phi_s
  match st.predict_v t.to'.state with
  | RResult.panicked => RResult.panicked
  | RResult.ok nv =>
      let td_error := t.reward + st.gamma.value * nv - v
      RResult.ok (st.update_v phi_s td_error)

/-- `Algorithm::handle_terminal`: project the `from` state, compute
`td_error = reward - evaluate_phi(phi_s)`, run `update_v`, reset the trace
via `decay(0.0)`, then step the `alpha` and `gamma` schedules once each. -/
def TDLambda.handle_terminal {S A : Type} (st : TDLambda S) (t : Transition S A) :
    TDLambda S :=
  let phi_s := st.fa_theta.projector.project t.from'.state
  let td_error := t.reward - st.fa_theta.evaluate_phi phi_s
  let st1 := st.update_v phi_s td_error
  let st2 := { st1 with trace := st1.trace.decay 0 }
  { st2 with alpha := st2.alpha.step, gamma := st2.gamma.step }

/-- Modelled from the spec: the external loop's dispatch — "`Observation`
variants Full/Partial/Terminal, used to decide dispatch (terminal vs
non-terminal path) via an `is_terminal()` query on the `to` field". -/
def TDLambda.handleTransition {S A : Type} (st : TDLambda S) (t : Transition S A) :
    RResult (TDLambda S) :=
  if t.to'.is_terminal then RResult.ok (st.handle_terminal t)
  else st.handle_sample t

/-! ### Helper lemmas on `List.set` / `List.getD` -/

theorem getD_set_self : ∀ (l : List ℚ) (i : ℕ) (a : ℚ), i < l.length →
    (l.set i a).getD i 0 = a := by
  intro l
  induction l with
  | nil => intro i a h; simp at h
  | cons x xs ih =>
      intro i a h
      cases i with
      | zero => simp
      | succ n =>
          simp only [List.set, List.getD, List.get?]
          exact ih n a (by simpa using h)

theorem getD_set_ne : ∀ (l : List ℚ) (i j : ℕ) (a : ℚ), j ≠ i →
    (l.set i a).getD j 0 = l.getD j 0 := by
  intro l
  induction l with
  | nil => intro i j a _; simp
  | cons x xs ih =>
      intro i j a hne
      cases i with
      | zero =>
          cases j with
          | zero => exact absurd rfl hne
          | succ m => simp [List.getD]
      | succ n =>
          cases j with
          | zero => simp [List.getD]
          | succ m =>
              simp only [List.set, List.getD, List.get?]
              exact ih n m a (fun h => hne (by omega))

/-! ### Unfolding lemmas for `update_v` -/

theorem update_v_trace_vec {S : Type} (st : TDLambda S) (φ : Projection) (e : ℚ) :
    (st.update_v φ e).trace.vec =
      vadd (vscale (st.trace.lambda * st.gamma.value) st.trace.vec)
        (φ.expanded st.fa_theta.projector.dim) := rfl

theorem update_v_theta {S : Type} (st : TDLambda S) (φ : Projection) (e : ℚ)
    (hlen : st.trace.vec.length = st.fa_theta.projector.dim) :
    (st.update_v φ e).fa_theta.theta =
      vadd st.fa_theta.theta
        (vscale (st.alpha.value * e)
          (vadd (vscale (st.trace.lambda * st.gamma.value) st.trace.vec)
            (φ.expanded st.fa_theta.projector.dim))) := by
  have hv : (vadd (vscale (st.trace.lambda * st.gamma.value) st.trace.vec)
      (φ.expanded st.fa_theta.projector.dim)).length = st.fa_theta.projector.dim := by
    rw [vadd_length, vscale_length, hlen, expanded_length, min_self]
  calc (st.update_v φ e).fa_theta.theta
      = vadd st.fa_theta.theta (vscale (st.alpha.value * e)
          (Projection.expanded st.fa_theta.projector.dim (Projection.dense
            (vadd (vscale (st.trace.lambda * st.gamma.value) st.trace.vec)
              (φ.expanded st.fa_theta.projector.dim))))) := rfl
    _ = _ := by rw [expanded_dense_of_length _ _ hv]

/-! ### Concrete instances used by witnesses and counterexamples -/

/-- A concrete two-dimensional projector over natural-number states: states
`0` and `1` activate one tile each; every other state is unrepresentable. -/
def exProjector : Projector ℕ :=
  { dim := 2,
    project := fun s => Projection.sparse [(s, 1)],
    representable := fun s => decide (s < 2) }

/-- A constant parameter schedule at value `q`, counter at `0`. -/
def exParam (q : ℚ) : Parameter := { sched := fun _ => q, count := 0 }

/-- A concrete freshly initialised TD(lambda) predictor over `exProjector`. -/
def exSt : TDLambda ℕ :=
  { trace := { lambda := 0, vec := [0, 0] },
    fa_theta := { projector := exProjector, theta := [0, 0] },
    alpha := exParam (1 / 10),
    gamma := exParam (9 / 10) }

/-- A concrete non-terminal transition from state `0` to state `1`. -/
def tEx : Transition ℕ Unit :=
  { from' := Observation.full 0 [], action := (), reward := 1,
    to' := Observation.full 1 [] }

/-- A concrete terminal transition from state `0` into terminal state `1`. -/
def tTerm : Transition ℕ Unit :=
  { from' := Observation.full 0 [], action := (), reward := 1,
    to' := Observation.terminal 1 }

/-! ### Merge characterization helper -/

theorem merge_inplace_some_iff (a b : Tile) (f : ℚ → ℚ → ℚ) (r : Tile) :
    a.merge_inplace b f = some r ↔
      a.dim = b.dim ∧ ∃ i x y, a.active = some (i, x) ∧ b.active = some (i, y) ∧
        r = ⟨a.dim, some (i, f x y)⟩ := by
  constructor
  · intro h
    unfold Tile.merge_inplace at h
    split at h
    · exact absurd h (by simp)
    · rename_i hd
      rw [not_not] at hd
      split at h
      · rename_i i x j y hA hB
        split at h
        · rename_i hij
          subst hij
          exact ⟨hd, i, x, y, hA, hB, (Option.some_inj.mp h).symm⟩
        · exact absurd h (by simp)
      · exact absurd h (by simp)
  · rintro ⟨hd, i, x, y, ha, hb, rfl⟩
    unfold Tile.merge_inplace
    rw [if_neg (not_not_intro hd), ha, hb]
    simp

/-- C7: merging two sparse `Tile` buffers is a hard failure (a panic, never
a silent fallback) whenever the shapes differ, and additionally whenever
the two active indices differ; when `merge` succeeds the result has the
left operand's shape.  This holds for `merge`, `merge_into` and
`merge_inplace` alike. -/
theorem merge_shape_and_index_contract (a b : Tile) (f : ℚ → ℚ → ℚ) :
    (a.dim ≠ b.dim →
      a.merge b f = none ∧ a.merge_into b f = none ∧ a.merge_inplace b f = none) ∧
    (∀ i x j y, a.active = some (i, x) → b.active = some (j, y) → i ≠ j →
      a.merge b f = none ∧ a.merge_into b f = none ∧ a.merge_inplace b f = none) ∧
    (∀ r, a.merge b f = some r → r.raw_dim = a.raw_dim) := by
  refine ⟨?_, ?_, ?_⟩
  · intro hd
    have h : a.merge_inplace b f = none := by
      unfold Tile.merge_inplace
      simp [hd]
    exact ⟨h, h, h⟩
  · intro i x j y ha hb hij
    have h : a.merge_inplace b f = none := by
      unfold Tile.merge_inplace
      by_cases hd : a.dim = b.dim
      · simp [hd, ha, hb, hij]
      · simp [hd]
    exact ⟨h, h, h⟩
  · intro r hr
    obtain ⟨-, i, x, y, -, -, hr⟩ := (merge_inplace_some_iff a b f r).mp hr
    subst hr
    rfl

/-- Witness for C7: concrete sparse buffers of shapes 3 and 4 never merge,
and two shape-3 buffers active at indices 0 and 1 never merge. -/
theorem merge_shape_and_index_contract_witness :
    (Tile.new 3 (some (0, 1))).merge (Tile.new 4 (some (0, 1))) (· + ·) = none ∧
    (Tile.new 3 (some (0, 1))).merge (Tile.new 3 (some (1, 2))) (· + ·) = none :=
  ⟨((merge_shape_and_index_contract (Tile.new 3 (some (0, 1)))
      (Tile.new 4 (some (0, 1))) (· + ·)).1 (by decide)).1,
   ((merge_shape_and_index_contract (Tile.new 3 (some (0, 1)))
      (Tile.new 3 (some (1, 2))) (· + ·)).2.1 0 1 1 2 rfl rfl (by decide)).1⟩

/-- C8: a sparse `Tile` with no active cell leaves any matching-shape
target unchanged under `addto` and `scaled_addto`; one with active cell
`(idx, v)` (in range) adds exactly `v` (resp. `alpha * v`) at `idx` and
changes no other entry, preserving the target's length. -/
theorem addto_sparse_exact (t : Tile) (alpha : ℚ) (arr : List ℚ)
    (_hsh : arr.length = t.raw_dim) :
    (t.active = none → t.addto arr = arr ∧ t.scaled_addto alpha arr = arr) ∧
    (∀ idx v, t.active = some (idx, v) → idx < arr.length →
      ((t.addto arr).length = arr.length ∧
        (t.addto arr).getD idx 0 = arr.getD idx 0 + v ∧
        ∀ k, k ≠ idx → (t.addto arr).getD k 0 = arr.getD k 0) ∧
      ((t.scaled_addto alpha arr).length = arr.length ∧
        (t.scaled_addto alpha arr).getD idx 0 = arr.getD idx 0 + alpha * v ∧
        ∀ k, k ≠ idx → (t.scaled_addto alpha arr).getD k 0 = arr.getD k 0)) := by
  constructor
  · intro h
    constructor <;> simp [Tile.addto, Tile.scaled_addto, h]
  · intro idx v h hlt
    constructor
    · refine ⟨?_, ?_, ?_⟩
      · simp [Tile.addto, h]
      · simp only [Tile.addto, h]
        exact getD_set_self arr idx _ hlt
      · intro k hk
        simp only [Tile.addto, h]
        exact getD_set_ne arr idx k _ hk
    · refine ⟨?_, ?_, ?_⟩
      · simp [Tile.scaled_addto, h]
      · simp only [Tile.scaled_addto, h]
        exact getD_set_self arr idx _ hlt
      · intro k hk
        simp only [Tile.scaled_addto, h]
        exact getD_set_ne arr idx k _ hk

/-- Witness for C8: the buffer of shape 3 active at `(1, 5)` adds exactly
`5` at index 1 of `[10, 20, 30]`. -/
theorem addto_sparse_exact_witness :
    ((Tile.new 3 (some (1, 5))).addto [10, 20, 30]).getD 1 0 =
      ([10, 20, 30] : List ℚ).getD 1 0 + 5 :=
  (((addto_sparse_exact (Tile.new 3 (some (1, 5))) 2 [10, 20, 30]
      (by decide)).2 1 5 rfl (by decide)).1).2.1

/-- C9 fails as stated: `map_into` applies `f` only to the active value, so
for `f` with `f 0 ≠ 0` it is not the elementwise transform of the
represented vector — here the inactive shape-1 buffer represents `[0]`,
whose elementwise image under the constant-1 function is `[1]`, yet
`map` leaves the represented vector at `[0]`. -/
theorem map_not_elementwise_counterexample :
    ((Tile.new 1 none).map (fun _ => 1)).toVector ≠
      (Tile.new 1 none).toVector.map (fun _ => (1 : ℚ)) := by
  decide

/-- C9 amended: `map` / `map_into` transform only the active value, so they
realize the elementwise transform of the represented vector exactly for
zero-preserving `f` (`f 0 = 0`); the copy- versus move-variant equivalence
`b.map f = b.clone().map_into f` holds for every `f` and every buffer
content, unconditionally. -/
theorem map_into_elementwise (t : Tile) (f : ℚ → ℚ) :
    (f 0 = 0 → (t.map_into f).toVector = t.toVector.map f) ∧
    t.map f = t.map_into f := by
  refine ⟨?_, rfl⟩
  intro h
  unfold Tile.toVector Tile.map_into
  cases ht : t.active with
  | none => simp [List.map_map, h, Function.comp]
  | some p =>
      obtain ⟨j, v⟩ := p
      simp only [List.map_map]
      refine List.map_congr_left ?_
      intro i _
      by_cases hij : j = i <;> simp [Function.comp, hij, h]

/-- Witness for C9 (amended): doubling is zero-preserving, and mapping it
over the shape-2 buffer active at `(0, 3)` doubles the represented vector
elementwise; the map / map_into equivalence holds even for the
non-zero-preserving constant-1 function on an inactive buffer. -/
theorem map_into_elementwise_witness :
    ((Tile.new 2 (some (0, 3))).map_into (fun x => 2 * x)).toVector =
      (Tile.new 2 (some (0, 3))).toVector.map (fun x => 2 * x) ∧
    (Tile.new 1 none).map (fun _ => 1) =
      (Tile.new 1 none).map_into (fun _ => (1 : ℚ)) :=
  ⟨(map_into_elementwise (Tile.new 2 (some (0, 3))) (fun x => 2 * x)).1 (by norm_num),
   (map_into_elementwise (Tile.new 1 none) (fun _ => 1)).2⟩

/-- C10: merging sparse `Tile` buffers panics whenever either operand has
no active cell, even at matching shapes; in particular a `zeros` buffer
never merges successfully with anything, and a successful merge implies
both operands were active at one common index. -/
theorem merge_requires_both_active (a b : Tile) (f : ℚ → ℚ → ℚ) :
    (a.active = none → a.merge_inplace b f = none ∧ a.merge b f = none) ∧
    (b.active = none → a.merge_inplace b f = none ∧ a.merge b f = none) ∧
    (∀ d, (Tile.zeros d).merge_inplace b f = none ∧
      a.merge_inplace (Tile.zeros d) f = none) ∧
    (∀ r, a.merge_inplace b f = some r →
      ∃ i x y, a.active = some (i, x) ∧ b.active = some (i, y)) := by
  have key : ∀ (u w : Tile), (u.active = none ∨ w.active = none) →
      u.merge_inplace w f = none := by
    intro u w h
    rcases hm : u.merge_inplace w f with _ | r
    · rfl
    · obtain ⟨-, i, x, y, hA, hB, -⟩ := (merge_inplace_some_iff u w f r).mp hm
      rcases h with h | h
      · rw [h] at hA; exact Option.noConfusion hA
      · rw [h] at hB; exact Option.noConfusion hB
  refine ⟨?_, ?_, ?_, ?_⟩
  · intro h; exact ⟨key a b (Or.inl h), key a b (Or.inl h)⟩
  · intro h; exact ⟨key a b (Or.inr h), key a b (Or.inr h)⟩
  · intro d
    exact ⟨key (Tile.zeros d) b (Or.inl rfl), key a (Tile.zeros d) (Or.inr rfl)⟩
  · intro r hr
    obtain ⟨-, i, x, y, ha, hb, -⟩ := (merge_inplace_some_iff a b f r).mp hr
    exact ⟨i, x, y, ha, hb⟩

/-- Witness for C10: the freshly constructed `zeros 4` buffer fails to
merge with an active shape-4 buffer despite the matching shapes. -/
theorem merge_requires_both_active_witness :
    (Tile.zeros 4).merge_inplace (Tile.new 4 (some (2, 1))) (· + ·) = none ∧
    (Tile.zeros 4).merge (Tile.new 4 (some (2, 1))) (· + ·) = none :=
  (merge_requires_both_active (Tile.zeros 4) (Tile.new 4 (some (2, 1)))
    (· + ·)).1 rfl

/-! ### Unfolding lemmas for `predict_v` and `handle_sample` -/

theorem predict_v_ok {S : Type} (st : TDLambda S) (s : S)
    (h : st.fa_theta.projector.representable s = true) :
    st.predict_v s =
      RResult.ok (st.fa_theta.evaluate_phi (st.fa_theta.projector.project s)) := by
  simp [TDLambda.predict_v, SimpleLFA.evaluate, h]

theorem predict_v_panic {S : Type} (st : TDLambda S) (s : S)
    (h : st.fa_theta.projector.representable s = false) :
    st.predict_v s = RResult.panicked := by
  simp [TDLambda.predict_v, SimpleLFA.evaluate, h]

theorem handle_sample_eq_ok {S A : Type} (st : TDLambda S) (t : Transition S A)
    (nv : ℚ) (hp : st.predict_v t.to'.state = RResult.ok nv) :
    st.handle_sample t =
      RResult.ok (st.update_v (st.fa_theta.projector.project t.from'.state)
        (t.reward + st.gamma.value * nv -
          st.fa_theta.evaluate_phi (st.fa_theta.projector.project t.from'.state))) := by
  unfold TDLambda.handle_sample
  rw [hp]

theorem handle_sample_eq_panic {S A : Type} (st : TDLambda S) (t : Transition S A)
    (hp : st.predict_v t.to'.state = RResult.panicked) :
    st.handle_sample t = RResult.panicked := by
  unfold TDLambda.handle_sample
  rw [hp]

/-! ### Claims about the TD(lambda) predictor -/

/-- C1: a transition whose `to` observation is `Terminal` is always routed
to `handle_terminal`, whose weight update uses the terminal target — the
TD error is the reward minus the current estimate of the `from` state,
with no gamma-discounted next-state value; the bootstrapped
`handle_sample` computation is never applied to such a transition. -/
theorem terminal_routes_terminal_target {S A : Type} (st : TDLambda S)
    (t : Transition S A) (s : S) (hterm : t.to' = Observation.terminal s)
    (hlen : st.trace.vec.length = st.fa_theta.projector.dim) :
    st.handleTransition t = RResult.ok (st.handle_terminal t) ∧
    (st.handle_terminal t).fa_theta.theta =
      vadd st.fa_theta.theta
        (vscale (st.alpha.value *
            (t.reward -
              st.fa_theta.evaluate_phi (st.fa_theta.projector.project t.from'.state)))
          (vadd (vscale (st.trace.lambda * st.gamma.value) st.trace.vec)
            ((st.fa_theta.projector.project t.from'.state).expanded
              st.fa_theta.projector.dim))) := by
  constructor
  · unfold TDLambda.handleTransition
    rw [hterm]
    rfl
  · exact update_v_theta st _ _ hlen

/-- Witness for C1: on the concrete predictor `exSt` the terminal
transition `tTerm` dispatches to `handle_terminal`. -/
theorem terminal_routes_terminal_target_witness :
    exSt.handleTransition tTerm = RResult.ok (exSt.handle_terminal tTerm) :=
  (terminal_routes_terminal_target exSt tTerm 1 rfl rfl).1

/-- C2 fails as stated: on a state the projector cannot represent,
`evaluate` does produce an explicit absence, but `predict_v` unwraps it,
so the predictor-level call aborts (panics) instead of delivering the
absence to the caller — here state `5` of the concrete predictor `exSt`. -/
theorem predict_v_panics_counterexample :
    exSt.fa_theta.evaluate 5 = none ∧ exSt.predict_v 5 = RResult.panicked := by
  constructor <;> rfl

/-- C2 amended: `evaluate` surfaces an unrepresentable state as an explicit
absence (`none`, never a default numeric value), but `predict_v` unwraps
that result, so at the predictor level an unrepresentable state panics
rather than returning the absence; on representable states `predict_v`
returns the evaluated estimate. -/
theorem evaluate_absence_predict_panics {S : Type} (st : TDLambda S) (s : S) :
    (st.fa_theta.projector.representable s = false →
      st.fa_theta.evaluate s = none ∧ st.predict_v s = RResult.panicked) ∧
    (st.fa_theta.projector.representable s = true →
      st.predict_v s =
        RResult.ok (st.fa_theta.evaluate_phi (st.fa_theta.projector.project s))) := by
  constructor
  · intro h
    constructor <;> simp [TDLambda.predict_v, SimpleLFA.evaluate, h]
  · intro h
    simp [TDLambda.predict_v, SimpleLFA.evaluate, h]

/-- Witness for C2 (amended): state `5` is unrepresentable for `exSt`, and
there `evaluate` is `none` while `predict_v` panics. -/
theorem evaluate_absence_predict_panics_witness :
    exSt.fa_theta.projector.representable 5 = false ∧
    exSt.fa_theta.evaluate 5 = none ∧ exSt.predict_v 5 = RResult.panicked :=
  ⟨rfl, ((evaluate_absence_predict_panics exSt 5).1 rfl).1,
    ((evaluate_absence_predict_panics exSt 5).1 rfl).2⟩

/-- C3: on a non-terminal transition whose `to` state is representable,
`handle_sample` computes the TD error `reward + gamma * v' - v` with both
`v` (value of the projected `from` state) and `v'` (bootstrapped value of
the `to` state) taken under the pre-update weights, and applies the
trace-based update scaled by `alpha` times that error. -/
theorem handle_sample_td_error {S A : Type} (st : TDLambda S) (t : Transition S A)
    (hrep : st.fa_theta.projector.representable t.to'.state = true)
    (hlen : st.trace.vec.length = st.fa_theta.projector.dim) :
    ∃ st', st.handle_sample t = RResult.ok st' ∧
      st'.fa_theta.theta =
        vadd st.fa_theta.theta
          (vscale (st.alpha.value *
              (t.reward +
                st.gamma.value *
                  st.fa_theta.evaluate_phi (st.fa_theta.projector.project t.to'.state) -
                st.fa_theta.evaluate_phi (st.fa_theta.projector.project t.from'.state)))
            (vadd (vscale (st.trace.lambda * st.gamma.value) st.trace.vec)
              ((st.fa_theta.projector.project t.from'.state).expanded
                st.fa_theta.projector.dim))) := by
  refine ⟨st.update_v (st.fa_theta.projector.project t.from'.state)
      (t.reward +
        st.gamma.value *
          st.fa_theta.evaluate_phi (st.fa_theta.projector.project t.to'.state) -
        st.fa_theta.evaluate_phi (st.fa_theta.projector.project t.from'.state)),
    ?_, update_v_theta st _ _ hlen⟩
  exact handle_sample_eq_ok st t _ (predict_v_ok st _ hrep)

/-- Witness for C3: on `exSt` and the concrete non-terminal transition
`tEx` the `to` state is representable and `handle_sample` succeeds. -/
theorem handle_sample_td_error_witness :
    exSt.fa_theta.projector.representable tEx.to'.state = true ∧
    ∃ st', exSt.handle_sample tEx = RResult.ok st' :=
  ⟨rfl, (handle_sample_td_error exSt tEx rfl rfl).elim fun st' h => ⟨st', h.1⟩⟩

/-- C4: `handle_terminal` computes the TD error `reward - v` with no
bootstrap term, routes through exactly the same `update_v`
(decay-update-apply) steps as the non-terminal path, and only afterwards
resets the trace via `decay(0.0)`. -/
theorem handle_terminal_no_bootstrap {S A : Type} (st : TDLambda S)
    (t : Transition S A)
    (hlen : st.trace.vec.length = st.fa_theta.projector.dim) :
    (st.handle_terminal t).fa_theta =
      (st.update_v (st.fa_theta.projector.project t.from'.state)
        (t.reward -
          st.fa_theta.evaluate_phi
            (st.fa_theta.projector.project t.from'.state))).fa_theta ∧
    (st.handle_terminal t).trace =
      ((st.update_v (st.fa_theta.projector.project t.from'.state)
        (t.reward -
          st.fa_theta.evaluate_phi
            (st.fa_theta.projector.project t.from'.state))).trace).decay 0 ∧
    (st.handle_terminal t).fa_theta.theta =
      vadd st.fa_theta.theta
        (vscale (st.alpha.value *
            (t.reward -
              st.fa_theta.evaluate_phi (st.fa_theta.projector.project t.from'.state)))
          (vadd (vscale (st.trace.lambda * st.gamma.value) st.trace.vec)
            ((st.fa_theta.projector.project t.from'.state).expanded
              st.fa_theta.projector.dim))) :=
  ⟨rfl, rfl, update_v_theta st _ _ hlen⟩

/-- Witness for C4: on `exSt` and the terminal transition `tTerm` the trace
after `handle_terminal` is the zero-decayed trace of the shared `update_v`
step. -/
theorem handle_terminal_no_bootstrap_witness :
    (exSt.handle_terminal tTerm).trace =
      ((exSt.update_v (exSt.fa_theta.projector.project tTerm.from'.state)
        (tTerm.reward -
          exSt.fa_theta.evaluate_phi
            (exSt.fa_theta.projector.project tTerm.from'.state))).trace).decay 0 :=
  (handle_terminal_no_bootstrap exSt tTerm rfl).2.1

/-- C5: in every update step, on both paths, the trace is first decayed by
`lambda * gamma`, then the expanded projection of the `from` state is
added onto it, and the weights are then updated by `alpha` times the TD
error times exactly that resulting trace content. -/
theorem update_order_decay_then_fold {S A : Type} (st : TDLambda S)
    (t : Transition S A)
    (hlen : st.trace.vec.length = st.fa_theta.projector.dim) :
    (∀ st', st.handle_sample t = RResult.ok st' →
      st'.trace.vec =
        vadd (vscale (st.trace.lambda * st.gamma.value) st.trace.vec)
          ((st.fa_theta.projector.project t.from'.state).expanded
            st.fa_theta.projector.dim) ∧
      ∃ nv, st.predict_v t.to'.state = RResult.ok nv ∧
        st'.fa_theta.theta =
          vadd st.fa_theta.theta
            (vscale (st.alpha.value *
                (t.reward + st.gamma.value * nv -
                  st.fa_theta.evaluate_phi
                    (st.fa_theta.projector.project t.from'.state)))
              st'.trace.vec)) ∧
    (st.handle_terminal t).fa_theta.theta =
      vadd st.fa_theta.theta
        (vscale (st.alpha.value *
            (t.reward -
              st.fa_theta.evaluate_phi (st.fa_theta.projector.project t.from'.state)))
          (vadd (vscale (st.trace.lambda * st.gamma.value) st.trace.vec)
            ((st.fa_theta.projector.project t.from'.state).expanded
              st.fa_theta.projector.dim))) := by
  constructor
  · intro st' h
    rcases hp : st.predict_v t.to'.state with nv | _
    · rw [handle_sample_eq_ok st t nv hp] at h
      obtain rfl : st.update_v (st.fa_theta.projector.project t.from'.state)
          (t.reward + st.gamma.value * nv -
            st.fa_theta.evaluate_phi
              (st.fa_theta.projector.project t.from'.state)) = st' := by
        injection h
      exact ⟨rfl, nv, rfl, update_v_theta st _ _ hlen⟩
    · rw [handle_sample_eq_panic st t hp] at h
      exact absurd h (by simp)
  · exact update_v_theta st _ _ hlen

/-- Witness for C5: on `exSt` and the non-terminal transition `tEx`, the
resulting trace is the decayed old trace plus the expanded projection of
the `from` state. -/
theorem update_order_decay_then_fold_witness :
    (exSt.update_v (exSt.fa_theta.projector.project tEx.from'.state)
        (tEx.reward + exSt.gamma.value *
            exSt.fa_theta.evaluate_phi (exSt.fa_theta.projector.project tEx.to'.state) -
          exSt.fa_theta.evaluate_phi
            (exSt.fa_theta.projector.project tEx.from'.state))).trace.vec =
      vadd (vscale (exSt.trace.lambda * exSt.gamma.value) exSt.trace.vec)
        ((exSt.fa_theta.projector.project tEx.from'.state).expanded
          exSt.fa_theta.projector.dim) :=
  ((update_order_decay_then_fold exSt tEx rfl).1 _ rfl).1

/-- C6: the trace is reset to all-zero (via `decay(0.0)`) and the alpha and
gamma schedules are stepped exactly once per `handle_terminal` call;
`handle_sample` leaves both schedules untouched and replaces the trace by
its decayed content plus the fresh projection — neither a reset nor a
schedule step ever happens mid-episode. -/
theorem episodic_reset_and_schedule_step {S A : Type} (st : TDLambda S)
    (t : Transition S A) :
    ((st.handle_terminal t).alpha.count = st.alpha.count + 1 ∧
      (st.handle_terminal t).alpha.sched = st.alpha.sched ∧
      (st.handle_terminal t).gamma.count = st.gamma.count + 1 ∧
      (st.handle_terminal t).gamma.sched = st.gamma.sched ∧
      ∀ x ∈ (st.handle_terminal t).trace.vec, x = 0) ∧
    (∀ st', st.handle_sample t = RResult.ok st' →
      st'.alpha = st.alpha ∧ st'.gamma = st.gamma ∧
      st'.trace.vec =
        vadd (vscale (st.trace.lambda * st.gamma.value) st.trace.vec)
          ((st.fa_theta.projector.project t.from'.state).expanded
            st.fa_theta.projector.dim)) := by
  constructor
  · refine ⟨rfl, rfl, rfl, rfl, ?_⟩
    show ∀ x ∈ vscale 0
        (vadd (vscale (st.trace.lambda * st.gamma.value) st.trace.vec)
          ((st.fa_theta.projector.project t.from'.state).expanded
            st.fa_theta.projector.dim)), x = 0
    exact vscale_zero_mem _
  · intro st' h
    rcases hp : st.predict_v t.to'.state with nv | _
    · rw [handle_sample_eq_ok st t nv hp] at h
      obtain rfl : st.update_v (st.fa_theta.projector.project t.from'.state)
          (t.reward + st.gamma.value * nv -
            st.fa_theta.evaluate_phi
              (st.fa_theta.projector.project t.from'.state)) = st' := by
        injection h
      exact ⟨rfl, rfl, rfl⟩
    · rw [handle_sample_eq_panic st t hp] at h
      exact absurd h (by simp)

/-- Witness for C6: one `handle_terminal` call on `exSt` advances the alpha
schedule's step counter by exactly one. -/
theorem episodic_reset_and_schedule_step_witness :
    (exSt.handle_terminal tTerm).alpha.count = exSt.alpha.count + 1 :=
  ((episodic_reset_and_schedule_step exSt tTerm).1).1

end Rsrl
